import Mathlib

/-!
Shallow embedding of the OnlyDust Star Tracker data pipeline
(src/onlydust_star_tracker/main.py).

Rows of the input CSV are modelled as records with optional fields
(`none` models a missing/NaN cell).  Python string operations are
modelled over the character list of a `String`, matching Python's
`str.strip`, `str.split(",")`, substring `in` and single-character `in`
semantics.  Numeric columns are modelled by `ℚ` (the claims under test
only involve exact arithmetic).  Dataframes are lists of rows, and the
pandas operations used by the script (`fillna`, `apply`, boolean-mask
filtering, left `merge`, column projection, `to_csv`/`read_csv` of the
contacts table) are given as functions on those lists.
-/

/-- Python `str.strip()`: drop whitespace from both ends of a string. -/
def pyStrip (s : String) : String :=
  String.mk (((s.data.dropWhile Char.isWhitespace).reverse.dropWhile Char.isWhitespace).reverse)

/-- Auxiliary worker for `pySplitComma`: accumulates the current token
(in reverse) and emits a token at every comma. -/
def splitCommaAux : List Char → List Char → List String
  | [], acc => [String.mk acc.reverse]
  | c :: cs, acc =>
      if c = (',') then String.mk acc.reverse :: splitCommaAux cs []
      else splitCommaAux cs (c :: acc)

/-- Python `s.split(",")`: split a string at every comma; the empty
string splits to `[""]`. -/
def pySplitComma (s : String) : List String := splitCommaAux s.data []

/-- Python substring test `sub in s`. -/
def pyInStr (sub s : String) : Bool := decide (sub.data <:+: s.data)

/-- Python single-character containment `c in s`. -/
def pyHasChar (s : String) (c : Char) : Bool := s.data.contains c

/-- One raw CSV row of the contributor data, before enrichment.
A `none` field models a missing (NaN) cell. -/
structure RawRow where
  contributor : String
  total_rewarded_usd_amount : Option ℚ
  pr_count : Option ℚ
  ecosystems : Option String
  country : Option String
  languages : Option String
  projects : Option String
  categories : Option String
deriving DecidableEq

/-- The `max_prs` thresholds of the four configured bands
(`config["developer_categories"]`), in the order the code reads them. -/
structure DevCategories where
  beginner : ℚ
  rising_star : ℚ
  established : ℚ
  senior : ℚ
deriving DecidableEq

/-- Embeds `get_developer_category` (main.py lines 42-53): the bands are
tested in the fixed order beginner, rising_star, established, senior with
inclusive upper bounds, and "Elite Developer" is the final `else`. -/
def get_developer_category (cfg : DevCategories) (pr : ℚ) : String :=
  if pr ≤ cfg.beginner then "Beginner"
  else if pr ≤ cfg.rising_star then "Rising Star"
  else if pr ≤ cfg.established then "Established Developer"
  else if pr ≤ cfg.senior then "Senior Contributor"
  else "Elite Developer"

/-- Embeds `df[col].fillna(0)` for a numeric cell. -/
def fillnaQ (x : Option ℚ) : ℚ := x.getD 0

/-- Embeds the `cost_per_pr` computation (main.py lines 31-39):
both numeric columns are filled with 0 first, then
`np.where(pr_count > 0, total / pr_count, total)`. -/
def cost_per_pr (total pr_count : Option ℚ) : ℚ :=
  if fillnaQ pr_count > 0 then fillnaQ total / fillnaQ pr_count else fillnaQ total

/-- Embeds the `is_starknet_exclusive` lambda (main.py lines 58-62):
`isinstance(x, str) and "Starknet" in x and "," not in x`. -/
def is_starknet_exclusive (x : Option String) : Bool :=
  match x with
  | some s => pyInStr ("Starknet") s && !(pyHasChar s (','))
  | none => false

/-- Embeds `df["country"].fillna("Unknown")` followed by
`country_code_to_name` (main.py lines 65-77).  The pycountry registry is
an external collaborator, abstracted as a partial map from (stripped)
codes to names; a failed lookup raises inside the `try` and is caught,
yielding "Unknown". -/
def country_code_to_name (registry : String → Option String) (country : Option String) : String :=
  let code := country.getD ("Unknown")
  if code = "Unknown" then "Unknown"
  else
    match registry (pyStrip code) with
    | some name => name
    | none => "Unknown"

/-- Embeds the list-field parsing (main.py lines 80-94):
`fillna("")` then `[tok.strip() for tok in str(x).split(",") if tok.strip()]`. -/
def parseListField (x : Option String) : List String :=
  ((pySplitComma (x.getD (""))).filter (fun tok => decide (pyStrip tok ≠ ""))).map pyStrip

/-- One enriched row, as produced by `load_and_process_data`. -/
structure ProcRow where
  contributor : String
  total_rewarded_usd_amount : ℚ
  pr_count : ℚ
  cost_per_pr : ℚ
  developer_category : String
  is_starknet_exclusive : Bool
  country_name : String
  languages : List String
  projects : List String
  categories : List String
  Contact : Bool
  Contacted : Bool
deriving DecidableEq

/-- Per-row enrichment: all derived columns of `load_and_process_data`
before the contact merge; the contact flags start unset (`false`). -/
def enrichRow (cfg : DevCategories) (registry : String → Option String) (r : RawRow) : ProcRow :=
  { contributor := r.contributor
    total_rewarded_usd_amount := fillnaQ r.total_rewarded_usd_amount
    pr_count := fillnaQ r.pr_count
    cost_per_pr := cost_per_pr r.total_rewarded_usd_amount r.pr_count
    developer_category := get_developer_category cfg (fillnaQ r.pr_count)
    is_starknet_exclusive := is_starknet_exclusive r.ecosystems
    country_name := country_code_to_name registry r.country
    languages := parseListField r.languages
    projects := parseListField r.projects
    categories := parseListField r.categories
    Contact := false
    Contacted := false }

/-- One row of the persisted contacts table (`data/generated/contacts.csv`). -/
structure ContactRec where
  Developer : String
  Contact : Bool
  Contacted : Bool
deriving DecidableEq

/-- Embeds reading the contacts file (main.py lines 101-104): an absent
file yields an empty table with the three columns. -/
def loadContacts (file : Option (List ContactRec)) : List ContactRec := file.getD []

/-- Embeds `df.merge(contacts_df, how="left", left_on="contributor",
right_on="Developer")` followed by `fillna(False)` on both flag columns
(main.py lines 107-109): each left row is paired with every matching
contact row, and an unmatched left row is kept once with both flags
filled to `false`. -/
def joinContacts (df : List ProcRow) (contacts : List ContactRec) : List ProcRow :=
  df.flatMap (fun r =>
    let ms := contacts.filter (fun c => c.Developer == r.contributor)
    if ms.isEmpty then [{ r with Contact := false, Contacted := false }]
    else ms.map (fun c => { r with Contact := c.Contact, Contacted := c.Contacted }))

/-- Embeds `load_and_process_data` (main.py lines 21-111): enrich every
raw row, then left-join the persisted contact state. -/
def load_and_process_data (cfg : DevCategories) (registry : String → Option String)
    (df : List RawRow) (contactsFile : Option (List ContactRec)) : List ProcRow :=
  joinContacts (df.map (enrichRow cfg registry)) (loadContacts contactsFile)

/-- Embeds `save_contacts` (main.py lines 114-119): project the
`[contributor, Contact, Contacted]` columns, renaming `contributor` to
`Developer`. -/
def save_contacts (df : List ProcRow) : List ContactRec :=
  df.map (fun r => { Developer := r.contributor, Contact := r.Contact, Contacted := r.Contacted })

/-- Serialization of one boolean cell by `DataFrame.to_csv`. -/
def encodeBool (b : Bool) : String := if b then "True" else "False"

/-- Parsing of one boolean cell by `pandas.read_csv`. -/
def decodeBool (s : String) : Option Bool :=
  if s = "True" then some true else if s = "False" then some false else none

/-- The contacts file on disk, as written by `to_csv`: one
(Developer, Contact, Contacted) field triple per row. -/
def contactsToCsv (cs : List ContactRec) : List (String × String × String) :=
  cs.map (fun c => (c.Developer, encodeBool c.Contact, encodeBool c.Contacted))

/-- Reading the contacts file back with `read_csv`: rows whose flag
cells do not parse as booleans are not contact records. -/
def contactsFromCsv (rows : List (String × String × String)) : List ContactRec :=
  rows.filterMap (fun row =>
    match decodeBool row.2.1, decodeBool row.2.2 with
    | some b1, some b2 => some { Developer := row.1, Contact := b1, Contacted := b2 }
    | _, _ => none)

/-- Embeds the sidebar facet filtering (main.py lines 153-172): each facet
with a non-empty selection keeps the rows whose list field contains at
least one selected value; an empty selection leaves the table untouched.
The script filters a copy (`df.copy()`), and this embedding is a pure
function of its inputs, so the input table is never mutated. -/
def applyFilters (df : List ProcRow) (selLangs selCats selProjs : List String) : List ProcRow :=
  let d1 := if selLangs.isEmpty then df
    else df.filter (fun r => selLangs.any (fun v => r.languages.contains v))
  let d2 := if selCats.isEmpty then d1
    else d1.filter (fun r => selCats.any (fun v => r.categories.contains v))
  if selProjs.isEmpty then d2
  else d2.filter (fun r => selProjs.any (fun v => r.projects.contains v))

/-- One facet test: an empty selection imposes no constraint, otherwise
some selected value must occur in the row's list field. -/
def facetPass (sel : List String) (field : List String) : Bool :=
  sel.isEmpty || sel.any (fun v => field.contains v)

/-- The combined row predicate of the three facet filters. -/
def matchesFacets (r : ProcRow) (selLangs selCats selProjs : List String) : Bool :=
  facetPass selLangs r.languages && (facetPass selCats r.categories && facetPass selProjs r.projects)

/-- One displayed row of the "Developer Details" table (main.py lines
267-289): the projected and renamed columns. -/
structure DevTableRow where
  Developer : String
  Category : String
  TotalRewards : ℚ
  PullRequests : ℚ
  CostPerPR : ℚ
  Country : String
  Contact : Bool
  Contacted : Bool
deriving DecidableEq

/-- Column projection and renaming producing one developer-table row. -/
def toDevTableRow (r : ProcRow) : DevTableRow :=
  { Developer := r.contributor
    Category := r.developer_category
    TotalRewards := r.total_rewarded_usd_amount
    PullRequests := r.pr_count
    CostPerPR := r.cost_per_pr
    Country := r.country_name
    Contact := r.Contact
    Contacted := r.Contacted }

/-- Embeds the displayed developer table (main.py lines 262-295): facet
filters, then the column projection, then the developer-category filter
(`isin(selected_dev_categories)` when that selection is non-empty). -/
def developer_table (df : List ProcRow) (selLangs selCats selProjs selDevCats : List String) :
    List DevTableRow :=
  let t := (applyFilters df selLangs selCats selProjs).map toDevTableRow
  if selDevCats.isEmpty then t else t.filter (fun r => selDevCats.contains r.Category)

/-- User edits made in `st.data_editor` are modelled as per-row updates
of the two editable flag columns. -/
def applyFlagEdits (t : List DevTableRow) (f g : DevTableRow → Bool) : List DevTableRow :=
  t.map (fun r => { r with Contact := f r, Contacted := g r })

/-- Embeds the edit-triggered contact write (main.py lines 306-310): the
`[Developer, Contact, Contacted]` projection of the edited displayed
table is what gets written to `contacts.csv`. -/
def writtenContacts (df : List ProcRow) (selLangs selCats selProjs selDevCats : List String)
    (f g : DevTableRow → Bool) : List ContactRec :=
  (applyFlagEdits (developer_table df selLangs selCats selProjs selDevCats) f g).map
    (fun r => { Developer := r.Developer, Contact := r.Contact, Contacted := r.Contacted })

/-- The example band configuration used by the spec:
beginner 5, rising_star 20, established 50, senior 100. -/
def exampleBands : DevCategories :=
  { beginner := 5, rising_star := 20, established := 50, senior := 100 }

/-- Strips the two contact flags from an enriched row, leaving the part
determined by the raw CSV row alone. -/
def stripFlags (r : ProcRow) : ProcRow := { r with Contact := false, Contacted := false }

/-- A concrete enriched row used to instantiate universally quantified
theorems. -/
def sampleProc : ProcRow :=
  { contributor := "alice"
    total_rewarded_usd_amount := 500
    pr_count := 10
    cost_per_pr := 50
    developer_category := "Rising Star"
    is_starknet_exclusive := true
    country_name := "France"
    languages := ["Rust"]
    projects := ["X"]
    categories := ["DeFi"]
    Contact := false
    Contacted := false }

/-- A concrete contact record whose developer differs from `sampleProc`. -/
def sampleContact : ContactRec := { Developer := "bob", Contact := true, Contacted := true }

/-- A concrete two-code country registry used to instantiate the
country-resolution theorem. -/
def sampleRegistry : String → Option String :=
  fun c => if c = "FR" then some ("France") else if c = "DE" then some ("Germany") else none

/-- The flag edit setting every editable cell to true. -/
def editAllTrue : DevTableRow → Bool := fun _ => true

/-- The flag edit setting every editable cell to false. -/
def editAllFalse : DevTableRow → Bool := fun _ => false

/-- C1: the developer-category classification is total into the five
labels; bands are tested in ascending order with inclusive upper bounds
and the first matching band wins; "Elite Developer" is the catch-all
above all configured maxima; and with bands {5, 20, 50, 100}, pr_count 5
maps to "Beginner", 6 to "Rising Star" and 1000 to "Elite Developer". -/
theorem developer_category_classification :
    (∀ (cfg : DevCategories) (pr : ℚ),
      get_developer_category cfg pr ∈
        [("Beginner" : String), "Rising Star", "Established Developer",
         "Senior Contributor", "Elite Developer"])
    ∧ (∀ (cfg : DevCategories) (pr : ℚ), pr ≤ cfg.beginner →
        get_developer_category cfg pr = "Beginner")
    ∧ (∀ (cfg : DevCategories) (pr : ℚ), cfg.beginner < pr → pr ≤ cfg.rising_star →
        get_developer_category cfg pr = "Rising Star")
    ∧ (∀ (cfg : DevCategories) (pr : ℚ), cfg.beginner < pr → cfg.rising_star < pr →
        pr ≤ cfg.established → get_developer_category cfg pr = "Established Developer")
    ∧ (∀ (cfg : DevCategories) (pr : ℚ), cfg.beginner < pr → cfg.rising_star < pr →
        cfg.established < pr → pr ≤ cfg.senior →
        get_developer_category cfg pr = "Senior Contributor")
    ∧ (∀ (cfg : DevCategories) (pr : ℚ), cfg.beginner < pr → cfg.rising_star < pr →
        cfg.established < pr → cfg.senior < pr →
        get_developer_category cfg pr = "Elite Developer")
    ∧ get_developer_category exampleBands 5 = "Beginner"
    ∧ get_developer_category exampleBands 6 = "Rising Star"
    ∧ get_developer_category exampleBands 1000 = "Elite Developer" := by
  refine ⟨?_, ?_, ?_, ?_, ?_, ?_, by decide, by decide, by decide⟩
  · intro cfg pr
    unfold get_developer_category
    split_ifs <;> simp
  · intro cfg pr h
    simp [get_developer_category, h]
  · intro cfg pr h1 h2
    simp [get_developer_category, not_le.mpr h1, h2]
  · intro cfg pr h1 h2 h3
    simp [get_developer_category, not_le.mpr h1, not_le.mpr h2, h3]
  · intro cfg pr h1 h2 h3 h4
    simp [get_developer_category, not_le.mpr h1, not_le.mpr h2, not_le.mpr h3, h4]
  · intro cfg pr h1 h2 h3 h4
    simp [get_developer_category, not_le.mpr h1, not_le.mpr h2, not_le.mpr h3, not_le.mpr h4]

/-- C1 witness: the catch-all conjunct applied at the example bands and
pr_count 1000. -/
theorem developer_category_classification_witness :
    get_developer_category exampleBands 1000 = "Elite Developer" :=
  developer_category_classification.2.2.2.2.2.1 exampleBands 1000
    (by decide) (by decide) (by decide) (by decide)

/-- C2 counterexample: a row whose ecosystems string is
"Starknet Ecosystem" is flagged Starknet-exclusive by the code although
that string is not exactly "Starknet", refuting the exact-equality
characterisation. -/
theorem starknet_exact_equality_counterexample :
    is_starknet_exclusive (some ("Starknet Ecosystem")) = true
    ∧ ("Starknet Ecosystem" : String) ≠ "Starknet" := by
  exact ⟨by decide, by decide⟩

/-- C2 (amended): is_starknet_exclusive is true iff the ecosystems field
is present and its string contains the substring "Starknet" and no
comma; exact equality with "Starknet" is sufficient but not necessary. -/
theorem starknet_exclusive_amended (x : Option String) :
    is_starknet_exclusive x = true ↔
      ∃ s, x = some s ∧ (("Starknet" : String).data <:+: s.data) ∧ (',') ∉ s.data := by
  cases x with
  | none => simp [is_starknet_exclusive]
  | some s =>
      simp [is_starknet_exclusive, pyInStr, pyHasChar]

/-- C2 amended witness: the ecosystems string "Starknet" itself
satisfies both sides. -/
theorem starknet_exclusive_amended_witness :
    is_starknet_exclusive (some ("Starknet")) = true :=
  (starknet_exclusive_amended (some ("Starknet"))).mpr
    ⟨"Starknet", rfl, by decide, by decide⟩

/-- C3: for every row whose ecosystems field is a string, the
Starknet-exclusive flag is true iff the string contains the substring
"Starknet" and contains no comma. -/
theorem starknet_exclusive_substring_rule (s : String) :
    is_starknet_exclusive (some s) = true ↔
      ((("Starknet" : String).data <:+: s.data) ∧ ¬((',') ∈ s.data)) := by
  simp [is_starknet_exclusive, pyInStr, pyHasChar]

/-- C3 witness: "Starknet " (with a trailing blank, no comma) is
classified exclusive. -/
theorem starknet_exclusive_substring_rule_witness :
    is_starknet_exclusive (some ("Starknet ")) = true :=
  (starknet_exclusive_substring_rule ("Starknet ")).mpr ⟨by decide, by decide⟩

/-- C4: after missing numerics are filled with 0, cost_per_pr is
total / pr_count when pr_count > 0 and total when pr_count = 0; in
particular (500, 10) yields 50 and (200, 0) yields 200, and a missing
pr_count falls back to the (filled) total. -/
theorem cost_per_pr_rule :
    (∀ total pr : Option ℚ, 0 < fillnaQ pr →
        cost_per_pr total pr = fillnaQ total / fillnaQ pr)
    ∧ (∀ total pr : Option ℚ, fillnaQ pr = 0 → cost_per_pr total pr = fillnaQ total)
    ∧ cost_per_pr (some 500) (some 10) = 50
    ∧ cost_per_pr (some 200) (some 0) = 200
    ∧ (∀ total : Option ℚ, cost_per_pr total none = fillnaQ total) := by
  refine ⟨?_, ?_, by norm_num [cost_per_pr, fillnaQ], by norm_num [cost_per_pr, fillnaQ], ?_⟩
  · intro total pr h
    simp [cost_per_pr, h]
  · intro total pr h
    simp [cost_per_pr, h]
  · intro total
    simp [cost_per_pr, fillnaQ]

/-- C4 witness: the positive branch applied at total 500, pr_count 10. -/
theorem cost_per_pr_rule_witness :
    cost_per_pr (some 500) (some 10) = fillnaQ (some 500) / fillnaQ (some 10) :=
  cost_per_pr_rule.1 (some 500) (some 10) (by decide)

/-- Helper: the chain of conditional facet filters equals one filter by
the combined facet predicate. -/
theorem applyFilters_eq_filter (df : List ProcRow) (selLangs selCats selProjs : List String) :
    applyFilters df selLangs selCats selProjs
      = df.filter (fun r => matchesFacets r selLangs selCats selProjs) := by
  unfold applyFilters
  by_cases hL : selLangs.isEmpty <;> by_cases hC : selCats.isEmpty <;>
    by_cases hP : selProjs.isEmpty <;>
    simp only [hL, hC, hP, Bool.false_eq_true, Bool.not_eq_true, if_true, if_false,
      ite_true, ite_false, List.filter_filter] <;>
    first
      | exact ((List.filter_congr (fun x _ => by
          simp [matchesFacets, facetPass, hL, hC, hP])).trans (List.filter_true df)).symm
      | exact List.filter_congr (fun x _ => by
          simp [matchesFacets, facetPass, hL, hC, hP, Bool.and_comm, Bool.and_left_comm,
            Bool.and_assoc])

/-- C5: the facet filter keeps exactly the rows whose list fields
intersect every non-empty selection (OR within a facet, AND across
facets), an empty selection imposes no constraint, and the filter is
idempotent.  The embedding of the filter is a pure function of the table
and the selections, so the input table is not mutated. -/
theorem facet_filter_spec (df : List ProcRow) (selLangs selCats selProjs : List String) :
    (∀ r, r ∈ applyFilters df selLangs selCats selProjs ↔
        r ∈ df
        ∧ (selLangs ≠ [] → ∃ v ∈ selLangs, v ∈ r.languages)
        ∧ (selCats ≠ [] → ∃ v ∈ selCats, v ∈ r.categories)
        ∧ (selProjs ≠ [] → ∃ v ∈ selProjs, v ∈ r.projects))
    ∧ applyFilters (applyFilters df selLangs selCats selProjs) selLangs selCats selProjs
        = applyFilters df selLangs selCats selProjs := by
  constructor
  · intro r
    rw [applyFilters_eq_filter, List.mem_filter]
    simp [matchesFacets, facetPass, List.any_eq_true, List.isEmpty_iff,
      or_iff_not_imp_left]
  · rw [applyFilters_eq_filter, applyFilters_eq_filter, List.filter_filter]
    exact List.filter_congr (fun x _ => by
      cases matchesFacets x selLangs selCats selProjs <;> simp)

/-- C5 witness: idempotence at a concrete one-row table and a concrete
selection. -/
theorem facet_filter_spec_witness :
    applyFilters (applyFilters [sampleProc] [("Rust" : String)] [] []) [("Rust" : String)] [] []
      = applyFilters [sampleProc] [("Rust" : String)] [] [] :=
  (facet_filter_spec [sampleProc] [("Rust" : String)] [] []).2

/-- Helper: reading back a boolean cell written by `to_csv` recovers it. -/
theorem decodeBool_encodeBool (b : Bool) : decodeBool (encodeBool b) = some b := by
  cases b <;> simp [encodeBool, decodeBool]

/-- Helper: the contacts CSV write/read cycle is the identity on contact
records. -/
theorem contactsFromCsv_toCsv (cs : List ContactRec) : contactsFromCsv (contactsToCsv cs) = cs := by
  induction cs with
  | nil => rfl
  | cons c rest ih =>
      simp [contactsToCsv, contactsFromCsv, decodeBool_encodeBool] at ih ⊢
      exact ih

/-- C6: persisting the (Developer, Contact, Contacted) triples with
save_contacts and the CSV write, then reading the file back at the next
session start and left-joining it onto the same contributor table,
yields the same enriched join result as joining the triples that were
present before the write; the cycle loses no contact information. -/
theorem contacts_roundtrip_join (df enriched : List ProcRow) :
    (∀ cs : List ContactRec,
        joinContacts df (contactsFromCsv (contactsToCsv cs)) = joinContacts df cs)
    ∧ joinContacts df (contactsFromCsv (contactsToCsv (save_contacts enriched)))
        = joinContacts df (save_contacts enriched) := by
  refine ⟨fun cs => ?_, ?_⟩ <;> rw [contactsFromCsv_toCsv]

/-- C6 witness: the full cycle at a concrete one-row table. -/
theorem contacts_roundtrip_join_witness :
    joinContacts [sampleProc] (contactsFromCsv (contactsToCsv (save_contacts [sampleProc])))
      = joinContacts [sampleProc] (save_contacts [sampleProc]) :=
  (contacts_roundtrip_join [sampleProc] [sampleProc]).2

/-- C7: country resolution is a total function on the record (the
embedding returns a string for every input, modelling that the Python
`try`/`except` never lets an error escape the row): an absent code, the
filled "Unknown" marker, or a code the registry cannot resolve all give
"Unknown", and a resolvable code gives the registry's name for the
stripped code. -/
theorem country_resolution_spec (registry : String → Option String) (country : Option String) :
    (country = none → country_code_to_name registry country = "Unknown")
    ∧ (∀ c, country = some c → registry (pyStrip c) = none →
        country_code_to_name registry country = "Unknown")
    ∧ (∀ c n, country = some c → c ≠ "Unknown" → registry (pyStrip c) = some n →
        country_code_to_name registry country = n) := by
  refine ⟨?_, ?_, ?_⟩
  · intro h
    subst h
    simp [country_code_to_name]
  · intro c hc hr
    subst hc
    by_cases h : c = "Unknown" <;> simp [country_code_to_name, h, hr]
  · intro c n hc hne hr
    subst hc
    simp [country_code_to_name, hne, hr]

/-- C7 witness: the resolvable branch at the code "FR" under the sample
registry. -/
theorem country_resolution_spec_witness :
    country_code_to_name sampleRegistry (some ("FR")) = "France" :=
  (country_resolution_spec sampleRegistry (some ("FR"))).2.2 ("FR") ("France") rfl
    (by decide) (by decide)

/-- C8: every list field parses to the ordered sequence obtained by
splitting the raw string on commas, trimming each token and dropping the
tokens that trim to nothing; an absent value parses to the empty list,
and the empty string is never an element of a parsed list. -/
theorem list_field_parse_spec :
    parseListField none = []
    ∧ (∀ s, parseListField (some s)
        = ((pySplitComma s).map pyStrip).filter (fun t => decide (t ≠ "")))
    ∧ (∀ x, ("" : String) ∉ parseListField x)
    ∧ parseListField (some ("Rust,Go")) = [("Rust" : String), "Go"]
    ∧ parseListField (some (" Rust , Go ,")) = [("Rust" : String), "Go"] := by
  refine ⟨by decide, ?_, ?_, by decide, by decide⟩
  · intro s
    rw [List.filter_map]
    rfl
  · intro x
    simp [parseListField, List.mem_map, List.mem_filter]

/-- C8 witness: the split/trim/drop characterisation applied at the
string " Rust , Go ,". -/
theorem list_field_parse_spec_witness :
    parseListField (some (" Rust , Go ,"))
      = ((pySplitComma (" Rust , Go ,")).map pyStrip).filter (fun t => decide (t ≠ "")) :=
  list_field_parse_spec.2.1 (" Rust , Go ,")

/-- Helper: joining against an empty contact table fills both flags of
every contributor row with false. -/
theorem joinContacts_no_contacts (df : List ProcRow) :
    joinContacts df [] = df.map stripFlags := by
  induction df with
  | nil => rfl
  | cons r rest ih =>
      simp only [joinContacts, List.flatMap_cons, List.filter_nil, List.isEmpty_nil,
        ite_true, if_true, List.map_cons] at ih ⊢
      rw [ih]
      rfl

/-- C9: the contact join is a left join on contributor against the
persisted contact state: every contributor row reappears in the join
with its non-flag columns unchanged, a contributor with no matching
contact entry receives Contact = false and Contacted = false, and when
the contact file is absent every contributor receives both flags false. -/
theorem contact_left_join_spec (df : List ProcRow) (contacts : List ContactRec) :
    (∀ r ∈ df, ∃ e ∈ joinContacts df contacts, stripFlags e = stripFlags r)
    ∧ (∀ t ∈ df, (∀ c ∈ contacts, c.Developer ≠ t.contributor) →
        stripFlags t ∈ joinContacts df contacts)
    ∧ joinContacts df (loadContacts none) = df.map stripFlags := by
  refine ⟨?_, ?_, joinContacts_no_contacts df⟩
  · intro r hr
    by_cases hm : (contacts.filter (fun c => c.Developer == r.contributor)).isEmpty
    · refine ⟨stripFlags r, ?_, rfl⟩
      unfold joinContacts
      refine List.mem_flatMap.mpr ⟨r, hr, ?_⟩
      simp only [hm, ite_true, if_true]
      exact List.mem_singleton.mpr rfl
    · have hne : contacts.filter (fun c => c.Developer == r.contributor) ≠ [] :=
        fun hnil => hm (List.isEmpty_iff.mpr hnil)
      obtain ⟨c, hc⟩ := List.exists_mem_of_ne_nil _ hne
      refine ⟨{ r with Contact := c.Contact, Contacted := c.Contacted }, ?_, rfl⟩
      unfold joinContacts
      refine List.mem_flatMap.mpr ⟨r, hr, ?_⟩
      simp only [hm, Bool.not_eq_true, ite_false, if_false]
      exact List.mem_map.mpr ⟨c, hc, rfl⟩
  · intro t ht hno
    have hfil : contacts.filter (fun c => c.Developer == t.contributor) = [] := by
      rw [List.filter_eq_nil_iff]
      intro c hc
      simpa using hno c hc
    unfold joinContacts
    refine List.mem_flatMap.mpr ⟨t, ht, ?_⟩
    simp [hfil, stripFlags]

/-- C9 witness: the unmatched row keeps both flags false, and the
absent-file join fills everything with false. -/
theorem contact_left_join_spec_witness :
    stripFlags sampleProc ∈ joinContacts [sampleProc] [sampleContact]
    ∧ joinContacts [sampleProc] (loadContacts none) = [sampleProc].map stripFlags := by
  have h := contact_left_join_spec [sampleProc] [sampleContact]
  exact ⟨h.2.1 sampleProc (by simp) (by decide), h.2.2⟩

/-- C10: an edit-triggered write persists exactly the projection of the
currently displayed developer table (facet filters, developer-category
filter and flag edits applied): the written developer column equals the
displayed developer column, and a contributor all of whose rows are
excluded by the active filters is absent from the written file even
though the user never edited it away. -/
theorem contact_write_projection_spec (df : List ProcRow)
    (selLangs selCats selProjs selDevCats : List String)
    (f g : DevTableRow → Bool) (d : String)
    (hex : ∀ r ∈ df, r.contributor = d →
      matchesFacets r selLangs selCats selProjs = false
      ∨ (selDevCats ≠ [] ∧ r.developer_category ∉ selDevCats)) :
    (writtenContacts df selLangs selCats selProjs selDevCats f g).map ContactRec.Developer
      = (developer_table df selLangs selCats selProjs selDevCats).map DevTableRow.Developer
    ∧ ∀ e ∈ writtenContacts df selLangs selCats selProjs selDevCats f g, e.Developer ≠ d := by
  constructor
  · simp only [writtenContacts, applyFlagEdits, List.map_map]
    rfl
  · intro e he hd
    simp only [writtenContacts, applyFlagEdits, List.map_map, List.mem_map,
      Function.comp] at he
    obtain ⟨w, hw, he⟩ := he
    have hdev : e.Developer = w.Developer := by rw [← he]
    have hw2 : w ∈ (applyFilters df selLangs selCats selProjs).map toDevTableRow
        ∧ (selDevCats ≠ [] → selDevCats.contains w.Category = true) := by
      unfold developer_table at hw
      by_cases hD : selDevCats.isEmpty
      · simp only [hD, ite_true, if_true] at hw
        exact ⟨hw, fun hne => absurd (List.isEmpty_iff.mp hD) hne⟩
      · simp only [hD, Bool.not_eq_true, ite_false, if_false] at hw
        rcases List.mem_filter.mp hw with ⟨hmem, hcat⟩
        exact ⟨hmem, fun _ => hcat⟩
    obtain ⟨hwmap, hwcat⟩ := hw2
    obtain ⟨r, hr, hproj⟩ := List.mem_map.mp hwmap
    rw [applyFilters_eq_filter, List.mem_filter] at hr
    obtain ⟨hrdf, hrmatch⟩ := hr
    have hcon : r.contributor = d := by
      rw [← hd, hdev, ← hproj]
      rfl
    rcases hex r hrdf hcon with hfalse | ⟨hne, hnot⟩
    · rw [hrmatch] at hfalse
      exact Bool.noConfusion hfalse
    · have hcat := hwcat hne
      rw [← hproj] at hcat
      exact hnot (by simpa [toDevTableRow] using hcat)

/-- C10 witness: with the single sample row excluded by the language
facet, nothing with its contributor name is written. -/
theorem contact_write_projection_spec_witness :
    (writtenContacts [sampleProc] [("Go" : String)] [] [] [] editAllTrue editAllFalse).map
        ContactRec.Developer
      = (developer_table [sampleProc] [("Go" : String)] [] [] []).map DevTableRow.Developer :=
  (contact_write_projection_spec [sampleProc] [("Go" : String)] [] [] []
    editAllTrue editAllFalse ("alice") (by decide)).1
